import Mathlib

/-!
Verification of the binarydrop micro-PaaS core against its specification.

The definitions below are a shallow embedding of the Rust sources:
models.rs (data model, App constructor and policy predicates),
commands/app_command/deploy.rs, start.rs, delete.rs (lifecycle commands),
supervisor.rs (stop/restart/process-exit handling) and
commands/server_command/serve.rs (the reverse-proxy gateway).

Machine integers are modelled as Nat/Int; timestamps (chrono DateTime) as
Nat instants passed in explicitly; UUIDs as explicitly supplied strings;
the SQLite store as association lists with the upsert-by-id save contract
of db.rs; filesystem and OS effects (log files, directories, spawn, kill,
wait, upstream HTTP) as explicit Except-valued environment inputs.
-/

deriving instance DecidableEq for Except

namespace BinaryDrop

/-- The AppState enum of models.rs. -/
inductive AppState
  | Created
  | Deployed
  | Starting
  | Running
  | Stopping
  | Stopped
  | Failed
  | Restarting
  | Crashed
deriving DecidableEq, Repr

/-- The RestartPolicy enum of models.rs. -/
inductive RestartPolicy
  | Always
  | OnFailure
  | Never
deriving DecidableEq, Repr

/-- The HealthCheckType enum of models.rs (only HttpGet exists). -/
inductive HealthCheckType
  | HttpGet (path : String) (expected_status : Nat)
deriving DecidableEq, Repr

/-- The HealthCheck struct of models.rs (all durations in seconds). -/
structure HealthCheck where
  check_type : HealthCheckType
  interval : Nat
  timeout : Nat
  retries : Nat
  start_period : Nat
deriving DecidableEq, Repr

/-- The Default impl for HealthCheck in models.rs. -/
def HealthCheck.default : HealthCheck :=
  { check_type := .HttpGet "/" 200
    interval := 10
    timeout := 10
    retries := 10
    start_period := 10 }

/-- The App struct of models.rs. The environment map is modelled as an
association list (insertion order irrelevant to every claim). -/
structure App where
  id : String
  name : String
  created_at : Nat
  updated_at : Nat
  state : AppState
  binary_path : Option String
  binary_hash : Option String
  port : Nat
  environment : List (String × String)
  process_id : Option Nat
  host : String
  restart_policy : RestartPolicy
  max_restarts : Option Nat
  restart_count : Nat
  last_exit_code : Option Int
  last_exit_time : Option Nat
  startup_timeout : Nat
  shutdown_timeout : Nat
  health_check : Option HealthCheck
deriving DecidableEq, Repr

/-- The AppError enum of models.rs. -/
inductive AppError
  | InvalidName (name : String)
  | InvalidPort (port : Nat)
deriving DecidableEq, Repr

/-- One character test of is_valid_app_name: ASCII lowercase, ASCII digit,
hyphen or underscore (models.rs). -/
def isValidAppNameChar (c : Char) : Bool :=
  (97 ≤ c.toNat && c.toNat ≤ 122) || (48 ≤ c.toNat && c.toNat ≤ 57) ||
    c = '-' || c = '_'

/-- The is_valid_app_name function of models.rs: non-empty, at most 64
characters, all characters lowercase alphanumeric, hyphen or underscore. -/
def is_valid_app_name (name : String) : Bool :=
  if name.isEmpty || name.length > 64 then false
  else name.data.all isValidAppNameChar

/-- App::new of models.rs. The generated UUID and the current instant are
explicit inputs id and now. -/
def App.new (id : String) (now : Nat) (name : String) (port : Nat) :
    Except AppError App :=
  if !is_valid_app_name name then .error (.InvalidName name)
  else if port < 1024 then .error (.InvalidPort port)
  else .ok
    { id := id
      name := name
      created_at := now
      updated_at := now
      state := .Created
      binary_path := none
      binary_hash := none
      port := port
      environment := []
      process_id := none
      host := "0.0.0.0"
      restart_policy := .OnFailure
      max_restarts := some 5
      restart_count := 0
      last_exit_code := none
      last_exit_time := none
      startup_timeout := 30
      shutdown_timeout := 10
      health_check := some HealthCheck.default }

/-- App::should_restart of models.rs. -/
def App.should_restart (app : App) : Bool :=
  match app.restart_policy with
  | .Always => true
  | .Never => false
  | .OnFailure => (app.last_exit_code.getD 0) != 0

/-- App::reached_max_restarts of models.rs. -/
def App.reached_max_restarts (app : App) : Bool :=
  match app.max_restarts with
  | some max => decide (max ≤ app.restart_count)
  | none => false

/-- App::is_running of models.rs. -/
def App.is_running (app : App) : Bool :=
  match app.state with
  | .Running => true
  | _ => false

/-- App::is_deployed of models.rs. -/
def App.is_deployed (app : App) : Bool :=
  match app.state with
  | .Deployed => true
  | _ => false

/-- The ProcessHistory struct of models.rs. -/
structure ProcessHistory where
  id : String
  app_id : String
  started_at : Nat
  ended_at : Option Nat
  exit_code : Option Int
  exit_reason : Option String
deriving DecidableEq, Repr

/-- db::apps::get_by_name of db.rs: the first stored record with the given
name. -/
def dbGetByName (db : List App) (name : String) : Option App :=
  db.find? (fun a => a.name == name)

/-- db::apps::save of db.rs: upsert keyed by id. An existing row with the
same id is replaced in place; otherwise the record is appended. -/
def dbSave (db : List App) (app : App) : List App :=
  if db.any (fun a => a.id == app.id) then
    db.map (fun a => if a.id == app.id then app else a)
  else db ++ [app]

/-- db::apps::delete_by_app_id of db.rs: removes the app row and every
process_history row of that app (the cascade in the same transaction). -/
def dbDeleteByAppId (apps : List App) (history : List ProcessHistory)
    (appId : String) : List App × List ProcessHistory :=
  (apps.filter (fun a => a.id != appId),
   history.filter (fun h => h.app_id != appId))

/-- Supervisor::update_process_history of supervisor.rs: the history list is
kept newest-first (the get_by_app_id ordering); the most recent entry of the
app, when one exists, is closed with the given instant, exit code and
reason, and saved back by id. -/
def closeLatestHistory (history : List ProcessHistory) (appId : String)
    (now : Nat) (exitCode : Option Int) (reason : String) :
    List ProcessHistory :=
  match history.find? (fun h => h.app_id == appId) with
  | none => history
  | some latest =>
      history.map (fun h =>
        if h.id == latest.id then
          { h with ended_at := some now, exit_code := exitCode,
                   exit_reason := some reason }
        else h)

/-- The outcome of commands/app_command/deploy.rs as far as the stored
record is concerned: the record after the command and whether a save was
performed. -/
structure DeployOutcome where
  app : App
  saved : Bool
deriving DecidableEq, Repr

/-- The database tail of deploy::execute (deploy.rs lines 49-93). The
filesystem preamble (binary existence, data directory creation, executable
bit) touches no record field; the sha256 of the uploaded binary is the
explicit input hash, and the copy destination is the explicit input
targetPath. When the stored binary_hash equals hash the command returns
early with no mutation and no save; otherwise it sets state Deployed,
binary_path, binary_hash and updated_at and saves. -/
def deployExecute (app : App) (hash : String) (targetPath : String)
    (now : Nat) : DeployOutcome :=
  match app.binary_hash with
  | some current =>
      if current = hash then { app := app, saved := false }
      else
        { app := { app with state := .Deployed,
                            binary_path := some targetPath,
                            binary_hash := some hash,
                            updated_at := now }
          saved := true }
  | none =>
      { app := { app with state := .Deployed,
                          binary_path := some targetPath,
                          binary_hash := some hash,
                          updated_at := now }
        saved := true }

/-- The StartError enum of commands/app_command/start.rs. -/
inductive StartError
  | AppNotFound (name : String)
  | AppAlreadyRunning (name : String)
  | AppNotDeployed (name : String)
  | AppStartFailed (msg : String)
  | AppDirectoryBroken (msg : String)
  | AppLogBroken (msg : String)
  | InternalError (msg : String)
deriving DecidableEq, Repr

/-- The Display strings of StartError (the thiserror error attributes in
start.rs). -/
def StartError.message : StartError → String
  | .AppNotFound s => "App not found: " ++ s
  | .AppAlreadyRunning s => "App already running: " ++ s
  | .AppNotDeployed s => "App not deployed: " ++ s
  | .AppStartFailed s => "Failed to start app: " ++ s
  | .AppDirectoryBroken s => "App directory broken: " ++ s
  | .AppLogBroken s => "App log broken: " ++ s
  | .InternalError s => "Failed to start app process: " ++ s

/-- The OS and filesystem effects consulted by start::execute, as explicit
inputs: the log path lookup, the append-mode open of the log file, the data
directory lookup, the try_clone of the log handle, the spawn result (the
pid on success), the UUID of the new history row and the current instant. -/
structure StartEnv where
  logPath : Except String String
  logOpen : Except String Unit
  dataDir : Except String String
  cloneLog : Except String Unit
  spawnPid : Except String Nat
  newHistoryId : String
  now : Nat

/-- The outcome of start::execute: the store after the command, whether an
OS process came into existence, and the result (the pid of the spawned
child on success). -/
structure StartOutcome where
  db : List App
  history : List ProcessHistory
  spawned : Bool
  result : Except StartError Nat

/-- start::execute of commands/app_command/start.rs. The checks run in
source order: missing record, is_running, is_deployed, binary_path; then
state Starting is saved, the log file and data directory are prepared, the
child is spawned, a fresh ProcessHistory row is inserted, and the record is
saved with the pid and state Running. -/
def startExecute (env : StartEnv) (db : List App)
    (history : List ProcessHistory) (appName : String) : StartOutcome :=
  match dbGetByName db appName with
  | none => ⟨db, history, false, .error (.AppNotFound appName)⟩
  | some app =>
    if app.is_running then
      ⟨db, history, false, .error (.AppAlreadyRunning appName)⟩
    else if !app.is_deployed then
      ⟨db, history, false, .error (.AppNotDeployed app.name)⟩
    else
      match app.binary_path with
      | none => ⟨db, history, false, .error (.AppNotDeployed app.name)⟩
      | some _ =>
        let app1 := { app with state := AppState.Starting,
                               updated_at := env.now }
        let db1 := dbSave db app1
        match env.logPath with
        | .error e => ⟨db1, history, false, .error (.AppLogBroken e)⟩
        | .ok _ =>
        match env.logOpen with
        | .error e => ⟨db1, history, false, .error (.AppLogBroken e)⟩
        | .ok _ =>
        match env.dataDir with
        | .error e => ⟨db1, history, false, .error (.AppDirectoryBroken e)⟩
        | .ok _ =>
        match env.cloneLog with
        | .error e => ⟨db1, history, false, .error (.AppStartFailed e)⟩
        | .ok _ =>
        match env.spawnPid with
        | .error e => ⟨db1, history, false, .error (.AppStartFailed e)⟩
        | .ok pid =>
          let hist : ProcessHistory :=
            { id := env.newHistoryId, app_id := app.id,
              started_at := env.now, ended_at := none,
              exit_code := none, exit_reason := none }
          let app2 := { app1 with process_id := some pid,
                                  state := AppState.Running,
                                  updated_at := env.now }
          ⟨dbSave db1 app2, hist :: history, true, .ok pid⟩

/-- The DeleteError enum of commands/app_command/delete.rs. -/
inductive DeleteError
  | AppNotFound (name : String)
  | AppRunning (name : String)
  | DirectoryError (msg : String)
  | DatabaseError (msg : String)
  | ConfigError (msg : String)
deriving DecidableEq, Repr

/-- The persistence store: the app rows and the process_history rows. -/
structure Store where
  apps : List App
  history : List ProcessHistory
deriving DecidableEq, Repr

/-- delete::execute of commands/app_command/delete.rs. getDir is the
config::get_app_dir lookup and removeDir the recursive directory removal,
both as explicit inputs. A missing record fails AppNotFound; a Running
record fails AppRunning before any effect; otherwise the directory is
removed and the row is deleted with its history cascade. -/
def deleteExecute (getDir : Except String String)
    (removeDir : Except String Unit) (st : Store) (appName : String) :
    Store × Except DeleteError Unit :=
  match dbGetByName st.apps appName with
  | none => (st, .error (.AppNotFound appName))
  | some app =>
    if app.is_running then (st, .error (.AppRunning appName))
    else
      match getDir with
      | .error e => (st, .error (.ConfigError e))
      | .ok _ =>
        match removeDir with
        | .error e => (st, .error (.DirectoryError e))
        | .ok _ =>
          let (apps1, hist1) := dbDeleteByAppId st.apps st.history app.id
          ({ apps := apps1, history := hist1 }, .ok ())

/-- The record update at the top of Supervisor::handle_process_exit
(supervisor.rs): clear process_id, set last_exit_code and last_exit_time,
touch updated_at. -/
def App.recordExit (app : App) (now : Nat) (exitCode : Int) : App :=
  { app with process_id := none,
             last_exit_code := some exitCode,
             last_exit_time := some now,
             updated_at := now }

/-- The outcome of Supervisor::handle_process_exit: the record as saved,
the derived exit reason written to the history row, and restartAfter, which
is some b exactly when the handler sleeps b seconds and then re-invokes the
start path for this app (the tail call to start_process). -/
structure ProcessExitOutcome where
  app : App
  exitReason : String
  restartAfter : Option Nat
deriving Repr

/-- Supervisor::handle_process_exit of supervisor.rs (lines 328-399), on
the record fetched for the app. The handle is removed from the process
table, the exit fields are recorded, the latest history row is closed with
reason Clean exit or Crashed, and the restart policy is applied: Crashed
when should_restart holds but the restart cap is reached; Restarting with
the count incremented and a capped linear backoff, then the start path,
when should_restart holds; otherwise Stopped on code 0 and Failed on a
non-zero code. -/
def handleProcessExit (app : App) (now : Nat) (exitCode : Int) :
    ProcessExitOutcome :=
  let a := app.recordExit now exitCode
  let reason := if exitCode = 0 then "Clean exit" else "Crashed"
  if a.should_restart then
    if a.reached_max_restarts then
      { app := { a with state := AppState.Crashed },
        exitReason := reason, restartAfter := none }
    else
      let a1 := { a with state := AppState.Restarting,
                         restart_count := a.restart_count + 1 }
      { app := a1, exitReason := reason,
        restartAfter := some (min a1.restart_count 5) }
  else
    if exitCode = 0 then
      { app := { a with state := AppState.Stopped },
        exitReason := reason, restartAfter := none }
    else
      { app := { a with state := AppState.Failed },
        exitReason := reason, restartAfter := none }

/-- The supervisor-visible state: the persisted store plus the in-memory
process table (the names holding a live handle). -/
structure SupState where
  db : List App
  history : List ProcessHistory
  table : List String

/-- The OS effects consulted by Supervisor::handle_stop, as explicit
inputs: the kill signal result, the synchronous wait result (the exit code
of the child, none when the platform reports no code), and the current
instant. -/
structure StopEnv where
  killResult : Except String Unit
  waitExitCode : Except String (Option Int)
  now : Nat

/-- Supervisor::handle_stop of supervisor.rs. A missing record fails; the
handle is removed from the table; when a handle existed the record is saved
Stopping, the child is killed and awaited (either OS failure aborts with an
error, the Stopping record already saved), the history row is closed with
reason Stopped by user, and the record is saved Stopped with the exit
fields; when no handle existed the record is reconciled to Stopped without
error. -/
def handleStop (env : StopEnv) (st : SupState) (appName : String) :
    SupState × Except String Unit :=
  match dbGetByName st.db appName with
  | none => (st, .error ("App \x27" ++ appName ++ "\x27 not found"))
  | some app =>
    let hadHandle := st.table.contains appName
    let table1 := st.table.filter (fun n => n != appName)
    if hadHandle then
      let app1 := { app with state := AppState.Stopping,
                             updated_at := env.now }
      let db1 := dbSave st.db app1
      match env.killResult with
      | .error e =>
          ({ st with db := db1, table := table1 },
           .error ("Failed to kill app: " ++ e))
      | .ok _ =>
        match env.waitExitCode with
        | .error e =>
            ({ st with db := db1, table := table1 },
             .error ("Failed to wait for app to exit: " ++ e))
        | .ok exitCode =>
          let hist1 := closeLatestHistory st.history app.id env.now
            exitCode "Stopped by user"
          let app2 := { app1 with state := AppState.Stopped,
                                  process_id := none,
                                  last_exit_code := exitCode,
                                  last_exit_time := some env.now,
                                  updated_at := env.now }
          ({ db := dbSave db1 app2, history := hist1, table := table1 },
           .ok ())
    else
      let app1 := { app with state := AppState.Stopped,
                             process_id := none,
                             updated_at := env.now }
      ({ st with db := dbSave st.db app1, table := table1 }, .ok ())

/-- Supervisor::handle_start of supervisor.rs: a missing record fails; a
name already in the process table fails already-running; otherwise
start_process runs the start command and, on success, records the handle in
the table. -/
def handleStart (env : StartEnv) (st : SupState) (appName : String) :
    SupState × Except String Unit :=
  match dbGetByName st.db appName with
  | none => (st, .error ("App \x27" ++ appName ++ "\x27 not found"))
  | some app =>
    if st.table.contains app.name then
      (st, .error ("App \x27" ++ appName ++ "\x27 is already running"))
    else
      let r := startExecute env st.db st.history app.name
      match r.result with
      | .ok _ =>
          ({ db := r.db, history := r.history,
             table := app.name :: st.table }, .ok ())
      | .error e =>
          ({ st with db := r.db, history := r.history },
           .error ("Failed to start process: " ++ e.message))

/-- The outcome of Supervisor::handle_restart: the state after the handler,
whether the fixed 1-second delay was taken, whether the start path was
invoked, and the result. -/
structure RestartOutcome where
  st : SupState
  sleptOneSec : Bool
  startInvoked : Bool
  result : Except String Unit

/-- Supervisor::handle_restart of supervisor.rs (lines 306-326): a missing
record fails; when the record is Running, handle_stop runs and its error,
if any, is propagated immediately (the question-mark operator), skipping
both the delay and the start; otherwise the handler sleeps one second and
invokes handle_start. -/
def handleRestart (se : StopEnv) (te : StartEnv) (st : SupState)
    (appName : String) : RestartOutcome :=
  match dbGetByName st.db appName with
  | none =>
      ⟨st, false, false,
       .error ("App \x27" ++ appName ++ "\x27 not found")⟩
  | some app =>
    let afterStop : SupState × Except String Unit :=
      if app.state = AppState.Running then handleStop se st appName
      else (st, .ok ())
    match afterStop with
    | (st1, .error e) => ⟨st1, false, false, .error e⟩
    | (st1, .ok _) =>
      let (st2, res) := handleStart te st1 appName
      ⟨st2, true, true, res⟩

/-- An inbound HTTP request as the gateway inspects it: the Host header
(none when the header is missing or not a string) and the request path. -/
structure HttpRequest where
  host : Option String
  path : String
deriving Repr

/-- An HTTP response as far as the claims observe it: status and body. -/
structure HttpResponse where
  status : Nat
  body : String
deriving DecidableEq, Repr

/-- Splitting a character list on a separator, the semantics of the Rust
str::split used on the Host header: the result is never empty, and empty
segments are kept. -/
def splitOnChar (sep : Char) : List Char → List (List Char)
  | [] => [[]]
  | c :: rest =>
    let r := splitOnChar sep rest
    if c = sep then [] :: r
    else
      match r with
      | [] => [[c]]
      | h :: t => (c :: h) :: t

/-- The app-name extraction of handle_request in serve.rs: split the Host
header on dots and take the leftmost label (the empty string when the
header is absent). -/
def appNameFromHost (host : String) : String :=
  String.mk ((splitOnChar '.' host.data).headD [])

/-- The admin dashboard of serve.rs: a 200 response with the HTML app
table. The HTML text is abbreviated; no claim inspects it. -/
def adminInterface (db : List App) : HttpResponse :=
  { status := 200,
    body := "BinaryDrop Admin: " ++ toString db.length ++ " apps" }

/-- proxy_to_app of serve.rs (lines 355-405): a missing record is an
anyhow error (not a response); a record that is not Running is a 503 with
a descriptive body; a Running record forwards to the upstream, whose
result is the explicit input upstream (an error for connection failure). -/
def proxyToApp (upstream : Except String HttpResponse) (db : List App)
    (appName : String) : Except String HttpResponse :=
  match dbGetByName db appName with
  | none => .error ("App \x27" ++ appName ++ "\x27 not found")
  | some app =>
    if app.state ≠ AppState.Running then
      .ok { status := 503,
            body := "App \x27" ++ appName ++ "\x27 is not running" }
    else upstream

/-- handle_request of serve.rs (lines 107-156): a path under the reserved
API prefix goes to the admin API router (its response is the explicit
input apiResponse); a leftmost Host label admin renders the dashboard; any
other label is proxied, and a proxy error of any kind becomes a 500 with
the error text in the body. -/
def handleRequest (upstream : Except String HttpResponse)
    (apiResponse : HttpResponse) (db : List App) (req : HttpRequest) :
    HttpResponse :=
  let host := req.host.getD ""
  let appName := appNameFromHost host
  if req.path.startsWith "/____bindrop_api/" then apiResponse
  else if appName = "admin" then adminInterface db
  else
    match proxyToApp upstream db appName with
    | .ok resp => resp
    | .error e => { status := 500, body := "Proxy error: " ++ e }

/-- Test fixture: an App as App::new builds it, with a chosen state. -/
def mkApp (id0 name0 : String) (port0 : Nat) (st0 : AppState) : App :=
  { id := id0
    name := name0
    created_at := 0
    updated_at := 0
    state := st0
    binary_path := none
    binary_hash := none
    port := port0
    environment := []
    process_id := none
    host := "0.0.0.0"
    restart_policy := .OnFailure
    max_restarts := some 5
    restart_count := 0
    last_exit_code := none
    last_exit_time := none
    startup_timeout := 30
    shutdown_timeout := 10
    health_check := some HealthCheck.default }

/-- Test fixture: a StartEnv in which every OS effect succeeds. -/
def okStartEnv : StartEnv :=
  { logPath := .ok "log", logOpen := .ok (), dataDir := .ok "data",
    cloneLog := .ok (), spawnPid := .ok 42, newHistoryId := "h1", now := 7 }

/-- Test fixture: a StopEnv in which kill and wait succeed. -/
def okStopEnv : StopEnv :=
  { killResult := .ok (), waitExitCode := .ok (some 0), now := 3 }

/-- A record found by name bears that name. -/
theorem dbGetByName_name {db : List App} {name : String} {a : App}
    (h : dbGetByName db name = some a) : a.name = name := by
  have hp := List.find?_some h
  exact eq_of_beq hp

/-- A record found by name is a member of the store. -/
theorem dbGetByName_mem {db : List App} {name : String} {a : App}
    (h : dbGetByName db name = some a) : a ∈ db :=
  List.mem_of_find?_eq_some h

/-- Replacing, by id, the first record bearing a name with a record bearing
the same name makes that record the one found by the name. -/
theorem find_name_map_upsert (name : String) (a a' : App)
    (hid : a'.id = a.id) (hname : a'.name = name) :
    ∀ db : List App, db.find? (fun x => x.name == name) = some a →
      (db.map (fun x => if x.id == a'.id then a' else x)).find?
        (fun x => x.name == name) = some a' := by
  intro db
  induction db with
  | nil => intro h; simp [List.find?] at h
  | cons x xs ih =>
    intro h
    have hA : (a'.name == name) = true := by simp [hname]
    by_cases hx : (x.name == name) = true
    · rw [List.find?_cons_of_pos (p := fun (y : App) => y.name == name) xs hx] at h
      simp only [Option.some.injEq] at h
      subst h
      have hcond : (x.id == a'.id) = true := by simp [hid]
      simp only [List.map, hcond, if_pos]
      exact List.find?_cons_of_pos (p := fun (y : App) => y.name == name) _ hA
    · rw [List.find?_cons_of_neg (p := fun (y : App) => y.name == name) xs hx] at h
      simp only [List.map]
      by_cases hxid : (x.id == a'.id) = true
      · rw [if_pos hxid]
        exact List.find?_cons_of_pos (p := fun (y : App) => y.name == name) _ hA
      · rw [if_neg hxid,
            List.find?_cons_of_neg (p := fun (y : App) => y.name == name) _ hx]
        exact ih h

/-- Saving a record that keeps the id and the name of the record currently
found under a name makes the saved record the one found under that name. -/
theorem dbGetByName_dbSave {db : List App} {name : String} {a : App}
    (a' : App) (h : dbGetByName db name = some a) (hid : a'.id = a.id)
    (hname : a'.name = name) :
    dbGetByName (dbSave db a') name = some a' := by
  have hmem : a ∈ db := dbGetByName_mem h
  have hany : (db.any (fun x => x.id == a'.id)) = true := by
    rw [List.any_eq_true]
    exact ⟨a, hmem, by simp [hid]⟩
  unfold dbSave
  rw [if_pos hany]
  exact find_name_map_upsert name a a' hid hname db h

/-- C6 (amended): should_restart is true when restart_policy is Always,
false when it is Never, and for OnFailure is true exactly when
last_exit_code is set to a non-zero value — an unset last_exit_code counts
as exit code 0, so it yields false; reached_max_restarts is true exactly
when max_restarts is set and restart_count has reached it. -/
theorem should_restart_reached_max_spec (app : App) :
    (app.restart_policy = .Always → app.should_restart = true) ∧
    (app.restart_policy = .Never → app.should_restart = false) ∧
    (app.restart_policy = .OnFailure →
      (app.should_restart = true ↔
        ∃ c, app.last_exit_code = some c ∧ c ≠ 0)) ∧
    (app.reached_max_restarts = true ↔
      ∃ m, app.max_restarts = some m ∧ m ≤ app.restart_count) := by
  refine ⟨?_, ?_, ?_, ?_⟩
  · intro h; simp [App.should_restart, h]
  · intro h; simp [App.should_restart, h]
  · intro h
    cases hc : app.last_exit_code with
    | none => simp [App.should_restart, h, hc]
    | some c => simp [App.should_restart, h, hc, bne_iff_ne]
  · cases hm : app.max_restarts with
    | none => simp [App.reached_max_restarts, hm]
    | some m => simp [App.reached_max_restarts, hm]

/-- C6 witness: a Never-policy app is not restarted, by the theorem. -/
theorem should_restart_reached_max_spec_witness :
    ({ mkApp "i" "a" 8080 AppState.Stopped with
        restart_policy := RestartPolicy.Never } : App).should_restart
      = false :=
  (should_restart_reached_max_spec _).2.1 rfl

/-- C6 counterexample: an OnFailure app with an unset last_exit_code has
should_restart false, although an unset last_exit_code differs from exit
code 0 — the claimed biconditional fails at this record. -/
theorem should_restart_unset_exit_cx :
    (mkApp "i" "a" 8080 AppState.Stopped).restart_policy
        = RestartPolicy.OnFailure ∧
    (mkApp "i" "a" 8080 AppState.Stopped).last_exit_code = none ∧
    ¬((mkApp "i" "a" 8080 AppState.Stopped).should_restart = true ↔
      (mkApp "i" "a" 8080 AppState.Stopped).last_exit_code ≠ some 0) :=
  ⟨rfl, rfl, fun h => absurd (h.mpr (by decide)) (by decide)⟩

/-- C7: deploying a binary whose hash equals the stored binary_hash leaves
the record unchanged (state, binary_path, binary_hash, updated_at and all
other fields) and performs no save. -/
theorem deploy_same_hash_noop (app : App) (hash targetPath : String)
    (now : Nat) (h : app.binary_hash = some hash) :
    (deployExecute app hash targetPath now).app = app ∧
    (deployExecute app hash targetPath now).saved = false := by
  simp [deployExecute, h]

/-- Test fixture: a deployed app with a stored binary hash. -/
def deployedApp : App :=
  { mkApp "a1" "app" 8080 AppState.Deployed with
      binary_path := some "bin", binary_hash := some "h" }

/-- C7 witness: redeploying the identical binary to the deployed fixture
changes nothing and saves nothing. -/
theorem deploy_same_hash_noop_witness :
    (deployExecute deployedApp "h" "p" 9).app = deployedApp ∧
    (deployExecute deployedApp "h" "p" 9).saved = false :=
  deploy_same_hash_noop deployedApp "h" "p" 9 rfl

/-- C8: delete on a record whose state is Running fails AppRunning and
returns the store unchanged — no app field modified, no ProcessHistory
entry removed. -/
theorem delete_running_rejected (getDir : Except String String)
    (removeDir : Except String Unit) (st : Store) (name : String)
    (app : App) (h : dbGetByName st.apps name = some app)
    (hr : app.state = AppState.Running) :
    deleteExecute getDir removeDir st name =
      (st, .error (.AppRunning name)) := by
  have hrun : app.is_running = true := by simp [App.is_running, hr]
  simp [deleteExecute, h, hrun]

/-- Test fixture: a store holding one Running app and one history row. -/
def runningStore : Store :=
  { apps := [mkApp "i1" "app" 8080 AppState.Running],
    history := [{ id := "ph1", app_id := "i1", started_at := 0,
                  ended_at := none, exit_code := none,
                  exit_reason := none }] }

/-- C8 witness: deleting the Running fixture fails AppRunning and leaves
the store intact. -/
theorem delete_running_rejected_witness :
    deleteExecute (.ok "dir") (.ok ()) runningStore "app" =
      (runningStore, .error (.AppRunning "app")) :=
  delete_running_rejected (.ok "dir") (.ok ()) runningStore "app"
    (mkApp "i1" "app" 8080 AppState.Running) rfl rfl

/-- C9: App::new validates the name first; with a valid name, every port
below 1024 is rejected with InvalidPort, every port of at least 1024 is
accepted, and every App the constructor returns has a port of at least
1024. -/
theorem app_new_port_validation (id0 : String) (now : Nat) (name : String)
    (port : Nat) :
    (is_valid_app_name name = true → port < 1024 →
      App.new id0 now name port = .error (.InvalidPort port)) ∧
    (is_valid_app_name name = true → 1024 ≤ port →
      ∃ a, App.new id0 now name port = .ok a) ∧
    (∀ a, App.new id0 now name port = .ok a → 1024 ≤ a.port) := by
  refine ⟨?_, ?_, ?_⟩
  · intro hv hp
    simp [App.new, hv, hp]
  · intro hv hp
    cases hres : App.new id0 now name port with
    | ok a => exact ⟨a, rfl⟩
    | error e =>
      exfalso
      simp [App.new, hv, Nat.not_lt.mpr hp] at hres
  · intro a ha
    by_cases hv : is_valid_app_name name = true
    · by_cases hp : port < 1024
      · simp [App.new, hv, hp] at ha
      · simp [App.new, hv, hp] at ha
        rw [← ha]
        exact Nat.not_lt.mp hp
    · simp [App.new, hv] at ha

/-- C9 witness: port 80 is rejected and port 8080 accepted for the valid
name app. -/
theorem app_new_port_validation_witness :
    App.new "u1" 0 "app" 80 = .error (.InvalidPort 80) ∧
    ∃ a, App.new "u1" 0 "app" 8080 = .ok a :=
  ⟨(app_new_port_validation "u1" 0 "app" 80).1 (by decide) (by decide),
   (app_new_port_validation "u1" 0 "app" 8080).2.1 (by decide) (by decide)⟩

/-- C10: every App returned by App::new starts Created with policy
OnFailure, max_restarts 5, restart_count 0, no binary, no process id, and
the default HTTP health check (GET of the root path expecting 200, with
interval, timeout, retries and start_period all 10). -/
theorem app_new_defaults (id0 : String) (now : Nat) (name : String)
    (port : Nat) (app : App) (h : App.new id0 now name port = .ok app) :
    app.state = .Created ∧ app.restart_policy = .OnFailure ∧
    app.max_restarts = some 5 ∧ app.restart_count = 0 ∧
    app.binary_path = none ∧ app.binary_hash = none ∧
    app.process_id = none ∧
    app.health_check = some
      { check_type := .HttpGet "/" 200, interval := 10, timeout := 10,
        retries := 10, start_period := 10 } := by
  by_cases hv : is_valid_app_name name = true
  · by_cases hp : port < 1024
    · simp [App.new, hv, hp] at h
    · simp [App.new, hv, hp] at h
      rw [← h]
      exact ⟨rfl, rfl, rfl, rfl, rfl, rfl, rfl, rfl⟩
  · simp [App.new, hv] at h

/-- C10 witness: the constructor output at concrete inputs is the fixture
record, and the theorem yields its defaults. -/
theorem app_new_defaults_witness :
    App.new "u1" 0 "app" 8080 = .ok (mkApp "u1" "app" 8080 .Created) ∧
    (mkApp "u1" "app" 8080 .Created).state = .Created ∧
    (mkApp "u1" "app" 8080 .Created).health_check =
      some HealthCheck.default :=
  ⟨by decide,
   (app_new_defaults "u1" 0 "app" 8080 _ (by decide)).1,
   (app_new_defaults "u1" 0 "app" 8080 _ (by decide)).2.2.2.2.2.2.2⟩

/-- C2 (amended): start on a record whose binary_path is unset fails
AppNotDeployed and spawns nothing — provided the record is not in state
Running, in which case the earlier is_running check fails
AppAlreadyRunning instead. The store is left untouched. -/
theorem start_binary_none_not_deployed (env : StartEnv) (db : List App)
    (history : List ProcessHistory) (name : String) (app : App)
    (h : dbGetByName db name = some app) (hbp : app.binary_path = none)
    (hns : app.state ≠ AppState.Running) :
    startExecute env db history name =
      ⟨db, history, false, .error (.AppNotDeployed app.name)⟩ := by
  have hr : app.is_running = false := by
    cases hst : app.state <;> simp_all [App.is_running]
  simp only [startExecute, h]
  by_cases hd : app.is_deployed = true
  · simp [hr, hd, hbp]
  · simp [hr, hd]

/-- C2 witness: a Stopped record with no binary fails AppNotDeployed with
no spawn. -/
theorem start_binary_none_not_deployed_witness :
    startExecute okStartEnv [mkApp "i1" "app" 8080 AppState.Stopped] []
      "app" =
    ⟨[mkApp "i1" "app" 8080 AppState.Stopped], [], false,
     .error (.AppNotDeployed "app")⟩ :=
  start_binary_none_not_deployed okStartEnv _ [] "app"
    (mkApp "i1" "app" 8080 AppState.Stopped) rfl rfl (by decide)

/-- C2 counterexample: a Running record with no binary fails
AppAlreadyRunning, not AppNotDeployed — the claimed error does not hold
for every state. -/
theorem start_binary_none_cx :
    (mkApp "i1" "app" 8080 AppState.Running).binary_path = none ∧
    (startExecute okStartEnv [mkApp "i1" "app" 8080 AppState.Running] []
        "app").result = .error (.AppAlreadyRunning "app") ∧
    (startExecute okStartEnv [mkApp "i1" "app" 8080 AppState.Running] []
        "app").result ≠ .error (.AppNotDeployed "app") :=
  ⟨rfl, rfl, by decide⟩

/-- C3: a ProcessExit with a non-zero code for an OnFailure app short of
its restart cap persists Restarting, increments restart_count by exactly
one, and schedules the start path after a backoff of min(restart_count, 5)
seconds computed from the incremented count. -/
theorem process_exit_onfailure_restarting (app : App) (now : Nat) (c : Int)
    (m : Nat) (hp : app.restart_policy = .OnFailure) (hc : c ≠ 0)
    (hm : app.max_restarts = some m) (hlt : app.restart_count < m) :
    (handleProcessExit app now c).app.state = AppState.Restarting ∧
    (handleProcessExit app now c).app.restart_count
      = app.restart_count + 1 ∧
    (handleProcessExit app now c).restartAfter
      = some (min ((handleProcessExit app now c).app.restart_count) 5) := by
  have hs : (app.recordExit now c).should_restart = true := by
    simp [App.recordExit, App.should_restart, hp, bne_iff_ne, hc]
  have hmr : (app.recordExit now c).reached_max_restarts = false := by
    simp [App.recordExit, App.reached_max_restarts, hm]
    omega
  simp only [handleProcessExit, hs, hmr]
  simp [App.recordExit]

/-- C3 witness: the fresh fixture (OnFailure, cap 5, count 0) exiting with
code 1 moves to Restarting with count 1 and backoff min(1,5). -/
theorem process_exit_onfailure_restarting_witness :
    (handleProcessExit (mkApp "i" "a" 8080 AppState.Running) 9 1).app.state
        = AppState.Restarting ∧
    (handleProcessExit (mkApp "i" "a" 8080 AppState.Running) 9
        1).app.restart_count = 1 ∧
    (handleProcessExit (mkApp "i" "a" 8080 AppState.Running) 9
        1).restartAfter = some (min 1 5) :=
  process_exit_onfailure_restarting (mkApp "i" "a" 8080 AppState.Running)
    9 1 5 rfl (by decide) rfl (by decide)

/-- C4: when the restart policy asks for a restart but the cap is reached
at the time of the exit, the handler persists Crashed and schedules no
automatic start — the state is terminal for the supervisor, and only an
explicit start command touches the app again. -/
theorem process_exit_crashed_terminal (app : App) (now : Nat) (c : Int)
    (h1 : (app.recordExit now c).should_restart = true)
    (h2 : (app.recordExit now c).reached_max_restarts = true) :
    (handleProcessExit app now c).app.state = AppState.Crashed ∧
    (handleProcessExit app now c).restartAfter = none := by
  simp [handleProcessExit, h1, h2]

/-- Test fixture: an Always-restart app whose restart cap is zero. -/
def cappedApp : App :=
  { mkApp "i2" "b" 8080 AppState.Running with
      restart_policy := RestartPolicy.Always, max_restarts := some 0 }

/-- C4 witness: the capped fixture crashes terminally on exit code 7. -/
theorem process_exit_crashed_terminal_witness :
    (handleProcessExit cappedApp 4 7).app.state = AppState.Crashed ∧
    (handleProcessExit cappedApp 4 7).restartAfter = none :=
  process_exit_crashed_terminal cappedApp 4 7 (by decide) (by decide)

/-- C1 (amended): for a request routed by Host to an app (path not under
the reserved API prefix, leftmost label not admin), an absent record yields
status 500 with a proxy-error body — the not-found lookup error is folded
into the catch-all 500 of handle_request, there is no 404 path — and a
record that is not Running yields 503 with a descriptive body. -/
theorem gateway_unknown_and_stopped (upstream : Except String HttpResponse)
    (apiR : HttpResponse) (db : List App) (req : HttpRequest)
    (host : String) (hh : req.host = some host)
    (hp : req.path.startsWith "/____bindrop_api/" = false)
    (ha : appNameFromHost host ≠ "admin") :
    (dbGetByName db (appNameFromHost host) = none →
      handleRequest upstream apiR db req =
        { status := 500,
          body := "Proxy error: " ++
            ("App \x27" ++ appNameFromHost host ++ "\x27 not found") }) ∧
    (∀ app, dbGetByName db (appNameFromHost host) = some app →
      app.state ≠ AppState.Running →
      handleRequest upstream apiR db req =
        { status := 503,
          body := "App \x27" ++ appNameFromHost host ++
            "\x27 is not running" }) := by
  constructor
  · intro hnone
    simp [handleRequest, hh, hp, ha, proxyToApp, hnone]
  · intro app hsome hns
    simp [handleRequest, hh, hp, ha, proxyToApp, hsome, hns]

/-- Test fixture: a request for an unknown app host. -/
def ghostReq : HttpRequest := { host := some "ghost.example", path := "/" }

/-- Test fixture: a request for the stopped app host. -/
def sappReq : HttpRequest := { host := some "sapp.example", path := "/" }

/-- Test fixture: a gateway store holding one Stopped app. -/
def stoppedGateDb : List App := [mkApp "g1" "sapp" 8080 AppState.Stopped]

/-- C1 witness: the unknown host gets the 500 proxy-error response and the
stopped app host gets the 503 response. -/
theorem gateway_unknown_and_stopped_witness :
    handleRequest (.error "refused") ⟨200, "api"⟩ [] ghostReq =
      ⟨500, "Proxy error: " ++
        ("App \x27" ++ appNameFromHost "ghost.example" ++
          "\x27 not found")⟩ ∧
    handleRequest (.error "refused") ⟨200, "api"⟩ stoppedGateDb sappReq =
      ⟨503, "App \x27" ++ appNameFromHost "sapp.example" ++
        "\x27 is not running"⟩ :=
  ⟨(gateway_unknown_and_stopped (.error "refused") ⟨200, "api"⟩ []
      ghostReq "ghost.example" rfl rfl (by decide)).1 rfl,
   (gateway_unknown_and_stopped (.error "refused") ⟨200, "api"⟩
      stoppedGateDb sappReq "sapp.example" rfl rfl (by decide)).2
      (mkApp "g1" "sapp" 8080 AppState.Stopped) rfl (by decide)⟩

/-- C1 counterexample: a Host whose leftmost label matches no record is
answered with status 500, not the claimed 404. -/
theorem gateway_unknown_404_cx :
    (handleRequest (.error "refused") ⟨200, "api"⟩ [] ghostReq).status
        = 500 ∧
    (handleRequest (.error "refused") ⟨200, "api"⟩ [] ghostReq).status
        ≠ 404 :=
  ⟨rfl, by decide⟩

/-- C5 (amended): handle_restart stops the app only when its record is in
state Running, and a stop failure is propagated as the restart outcome,
skipping both the fixed 1-second delay and the start; when the stop
succeeds or is skipped, the handler waits the fixed 1-second delay and
invokes the start path; in net effect a Deployed app not held in the
process table ends up Running when the OS effects succeed. -/
theorem restart_stop_propagation (se : StopEnv) (te : StartEnv)
    (st : SupState) (name : String) (app : App)
    (h : dbGetByName st.db name = some app) :
    (app.state = AppState.Running → ∀ e,
      (handleStop se st name).2 = .error e →
      handleRestart se te st name =
        ⟨(handleStop se st name).1, false, false, .error e⟩) ∧
    (app.state = AppState.Running →
      (handleStop se st name).2 = .ok () →
      handleRestart se te st name =
        ⟨(handleStart te (handleStop se st name).1 name).1, true, true,
         (handleStart te (handleStop se st name).1 name).2⟩) ∧
    (app.state ≠ AppState.Running →
      handleRestart se te st name =
        ⟨(handleStart te st name).1, true, true,
         (handleStart te st name).2⟩) ∧
    (app.state = AppState.Deployed → ∀ bp, app.binary_path = some bp →
      st.table.contains name = false →
      (∃ lp, te.logPath = .ok lp) → te.logOpen = .ok () →
      (∃ dd, te.dataDir = .ok dd) → te.cloneLog = .ok () →
      (∃ pid, te.spawnPid = .ok pid) →
      (dbGetByName (handleRestart se te st name).st.db name).map App.state
        = some AppState.Running) := by
  have hname : app.name = name := dbGetByName_name h
  have part1 : app.state = AppState.Running → ∀ e,
      (handleStop se st name).2 = .error e →
      handleRestart se te st name =
        ⟨(handleStop se st name).1, false, false, .error e⟩ := by
    intro hrun e herr
    rcases hstop : handleStop se st name with ⟨st1, r⟩
    rw [hstop] at herr
    simp only at herr
    subst herr
    simp only [handleRestart, h, if_pos hrun, hstop]
  have part2 : app.state = AppState.Running →
      (handleStop se st name).2 = .ok () →
      handleRestart se te st name =
        ⟨(handleStart te (handleStop se st name).1 name).1, true, true,
         (handleStart te (handleStop se st name).1 name).2⟩ := by
    intro hrun hok
    rcases hstop : handleStop se st name with ⟨st1, r⟩
    rw [hstop] at hok
    simp only at hok
    subst hok
    simp only [handleRestart, h, if_pos hrun, hstop]
  have part3 : app.state ≠ AppState.Running →
      handleRestart se te st name =
        ⟨(handleStart te st name).1, true, true,
         (handleStart te st name).2⟩ := by
    intro hns
    simp only [handleRestart, h, if_neg hns]
  refine ⟨part1, part2, part3, ?_⟩
  intro hdep bp hbp htab hlp hlo hdd hcl hsp
  obtain ⟨lp, hlp⟩ := hlp
  obtain ⟨dd, hdd⟩ := hdd
  obtain ⟨pid, hsp⟩ := hsp
  have hns : app.state ≠ AppState.Running := by
    rw [hdep]; exact fun hcontra => AppState.noConfusion hcontra
  rw [part3 hns]
  have hrun : app.is_running = false := by simp [App.is_running, hdep]
  have hdp : app.is_deployed = true := by simp [App.is_deployed, hdep]
  have h2 : dbGetByName st.db app.name = some app := by rw [hname]; exact h
  have htab2 : st.table.contains app.name = false := by
    rw [hname]; exact htab
  simp only [handleStart, h, htab2, Bool.false_eq_true, if_false,
    startExecute, h2, hrun, hdp, Bool.not_true, hbp, hlp, hlo, hdd, hcl,
    hsp]
  have save1 := dbGetByName_dbSave
    { app with state := AppState.Starting, updated_at := te.now,
               binary_path := some bp } h rfl hname
  have save2 := dbGetByName_dbSave
    { app with state := AppState.Running, process_id := some pid,
               updated_at := te.now, binary_path := some bp }
    save1 rfl hname
  rw [save2]
  rfl

/-- Test fixture: a StopEnv whose kill signal fails. -/
def stopFailEnv : StopEnv :=
  { killResult := .error "boom", waitExitCode := .ok none, now := 3 }

/-- Test fixture: supervisor state holding one Running app with a live
handle in the process table. -/
def runningSup : SupState :=
  { db := [{ mkApp "r1" "app" 8080 AppState.Running with
      binary_path := some "bin", binary_hash := some "h" }],
    history := [], table := ["app"] }

/-- Test fixture: supervisor state holding the Deployed fixture with no
live handle. -/
def deployedSup : SupState :=
  { db := [deployedApp], history := [], table := [] }

/-- C5 counterexample: a failing kill during the stop phase becomes the
outcome of the whole restart — the error is propagated, the 1-second delay
is never taken and the start path is never invoked, against the claimed
best-effort stop. -/
theorem restart_stop_error_cx :
    (handleRestart stopFailEnv okStartEnv runningSup "app").result =
      .error ("Failed to kill app: boom") ∧
    (handleRestart stopFailEnv okStartEnv runningSup "app").sleptOneSec
      = false ∧
    (handleRestart stopFailEnv okStartEnv runningSup "app").startInvoked
      = false :=
  ⟨rfl, rfl, rfl⟩

/-- C5 witness: restarting the Deployed fixture skips the stop, takes the
delay, invokes the start path and leaves the record Running. -/
theorem restart_stop_propagation_witness :
    handleRestart okStopEnv okStartEnv deployedSup "app" =
      ⟨(handleStart okStartEnv deployedSup "app").1, true, true,
       (handleStart okStartEnv deployedSup "app").2⟩ ∧
    (dbGetByName (handleRestart okStopEnv okStartEnv deployedSup
        "app").st.db "app").map App.state = some AppState.Running :=
  ⟨(restart_stop_propagation okStopEnv okStartEnv deployedSup "app"
      deployedApp rfl).2.2.1 (by decide),
   (restart_stop_propagation okStopEnv okStartEnv deployedSup "app"
      deployedApp rfl).2.2.2 rfl "bin" rfl rfl ⟨"log", rfl⟩ rfl
      ⟨"data", rfl⟩ rfl ⟨42, rfl⟩⟩

end BinaryDrop
